import Mathlib

/-!
Shallow embedding of the `sam_assistant` document store
(`sam_assistant/document.py` and `sam_assistant/document_repository.py`)
and a verification of the specification's claims about it.

Modelling conventions:
* Python `dict`s (insertion ordered, unique keys) are association lists
  `List (String × α)`; assignment replaces the key's entry in place or
  appends a fresh one at the end, deletion removes the key's entry.
* JSON values are the inductive `JSON` (null / bool / number / string /
  array / object).
* `datetime` values are integers (an abstract totally ordered clock);
  `datetime.isoformat` is an injective encoding into a JSON leaf and
  `datetime.fromisoformat` its partial inverse, failing on every other
  shape (modelling `ValueError`/`TypeError` on malformed input).
* The file system is an association list from path to the JSON payload the
  file parses to; a corrupt file is any `JSON` value that
  `Document.from_dict` rejects.
* I/O failures (disk full, permission denied, ...) are modelled by boolean
  parameters saying whether each write step succeeds; a failed step raises,
  which the source catches at the operation boundary, returning `False`.
-/

/-- A JSON value: the payload type of `metadata` values, document files and
the index file. -/
inductive JSON where
  | null : JSON
  | bool (b : Bool) : JSON
  | num (n : Int) : JSON
  | str (s : String) : JSON
  | arr (elems : List JSON) : JSON
  | obj (fields : List (String × JSON)) : JSON

/-- Python `dict` lookup `m[k]` / `k in m` on an insertion-ordered
association list with unique keys: `some` the stored value, `none` when the
key is absent. -/
def dictGet {α : Type} : List (String × α) → String → Option α
  | [], _ => none
  | p :: t, k => if p.1 = k then some p.2 else dictGet t k

/-- Python `m.get(k, d)`. -/
def dictGetD {α : Type} (m : List (String × α)) (k : String) (d : α) : α :=
  (dictGet m k).getD d

/-- Python `m[k] = v`: replace the key's entry in place if present, else
append (insertion order is preserved). -/
def dictSet {α : Type} : List (String × α) → String → α → List (String × α)
  | [], k, v => [(k, v)]
  | p :: t, k, v => if p.1 = k then (k, v) :: t else p :: dictSet t k v

/-- Python `del m[k]`. -/
def dictDel {α : Type} : List (String × α) → String → List (String × α)
  | [], _ => []
  | p :: t, k => if p.1 = k then dictDel t k else p :: dictDel t k

/-- `datetime.isoformat`: the timestamp's injective encoding as the JSON
leaf stored in serialized dictionaries. The ISO-8601 string syntax is
abstracted to the encoded clock value; only injectivity and invertibility
of the encoding are used by the source. -/
def datetimeIsoformat (t : Int) : JSON :=
  .num t

/-- `datetime.fromisoformat`: partial inverse of `datetimeIsoformat`;
any other JSON shape raises (`ValueError`/`TypeError`), modelled as
`none`. -/
def datetimeFromisoformat : JSON → Option Int
  | .num t => some t
  | _ => none

/-- `Document`: id, content, type, metadata, tags and the two
timestamps. -/
structure Document where
  doc_id : String
  content : String
  doc_type : String
  metadata : List (String × JSON)
  tags : List String
  created_at : Int
  updated_at : Int

/-- `Document.__init__(doc_id, content, doc_type="text", metadata=None,
tags=None, created_at=None)`: `metadata or {}` and `tags or []` replace a
missing (or empty, which coincides) argument by the empty collection;
`created_at or datetime.now()` defaults to the current clock `now`;
`updated_at` starts equal to `created_at`. -/
def Document.new (doc_id content doc_type : String)
    (metadata : Option (List (String × JSON))) (tags : Option (List String))
    (created_at : Option Int) (now : Int) : Document :=
  { doc_id := doc_id
    content := content
    doc_type := doc_type
    metadata := metadata.getD []
    tags := tags.getD []
    created_at := created_at.getD now
    updated_at := created_at.getD now }

/-- `Document.update_content`: unconditional replace, `updated_at`
becomes the current clock `now`. -/
def Document.update_content (d : Document) (content : String)
    (now : Int) : Document :=
  { d with content := content, updated_at := now }

/-- `Document.add_tag`: append and stamp only when the tag is not already
present (exact string equality). -/
def Document.add_tag (d : Document) (tag : String) (now : Int) : Document :=
  if tag ∈ d.tags then d
  else { d with tags := d.tags ++ [tag], updated_at := now }

/-- `Document.remove_tag`: remove the first occurrence and stamp only when
the tag is present. -/
def Document.remove_tag (d : Document) (tag : String) (now : Int) :
    Document :=
  if tag ∈ d.tags then { d with tags := d.tags.erase tag, updated_at := now }
  else d

/-- `Document.update_metadata`: set/overwrite the key, always stamp. -/
def Document.update_metadata (d : Document) (key : String) (value : JSON)
    (now : Int) : Document :=
  { d with metadata := dictSet d.metadata key value, updated_at := now }

/-- `Document.to_dict`: the serialized dictionary, timestamps encoded by
`datetimeIsoformat`. -/
def Document.to_dict (d : Document) : List (String × JSON) :=
  [("doc_id", .str d.doc_id),
   ("content", .str d.content),
   ("doc_type", .str d.doc_type),
   ("metadata", .obj d.metadata),
   ("tags", .arr (d.tags.map .str)),
   ("created_at", datetimeIsoformat d.created_at),
   ("updated_at", datetimeIsoformat d.updated_at)]

/-- Read a JSON array back as a list of tags. -/
def asStrList : List JSON → Option (List String)
  | [] => some []
  | .str s :: t => (asStrList t).map (fun l => s :: l)
  | _ => none

/-- `Document.from_dict`: `data["doc_id"]`, `data["content"]` and
`data["created_at"]` raise `KeyError` when missing (`none`); `doc_type`
defaults to `"text"`, `metadata` to `{}`, `tags` to `[]`, and `updated_at`
to the reconstructed `created_at`, being overridden when supplied. A
present value whose shape cannot inhabit the typed field is rejected
(outside this typed model Python would construct an ill-typed document). -/
def Document.from_dict (data : List (String × JSON)) : Option Document :=
  match dictGet data "doc_id", dictGet data "content",
      dictGet data "created_at" with
  | some (.str doc_id), some (.str content), some ca_raw =>
    match datetimeFromisoformat ca_raw with
    | none => none
    | some created_at =>
      let doc_type? : Option String :=
        match dictGet data "doc_type" with
        | none => some "text"
        | some (.str t) => some t
        | some _ => none
      let metadata? : Option (List (String × JSON)) :=
        match dictGet data "metadata" with
        | none => some []
        | some (.obj m) => some m
        | some _ => none
      let tags? : Option (List String) :=
        match dictGet data "tags" with
        | none => some []
        | some (.arr l) => asStrList l
        | some _ => none
      let updated_at? : Option Int :=
        match dictGet data "updated_at" with
        | none => some created_at
        | some u_raw => datetimeFromisoformat u_raw
      match doc_type?, metadata?, tags?, updated_at? with
      | some doc_type, some metadata, some tags, some updated_at =>
        some { doc_id := doc_id, content := content, doc_type := doc_type,
               metadata := metadata, tags := tags, created_at := created_at,
               updated_at := updated_at }
      | _, _, _, _ => none
  | _, _, _ => none

/-- `Document.to_json`: `json.dumps(to_dict())`, modelled at the JSON
level (the indented text encoding is invisible to every claim). -/
def Document.to_json (d : Document) : JSON :=
  .obj d.to_dict

/-- `Document.from_json`: `from_dict(json.loads(s))`; a payload that is
not a JSON object cannot be a serialized document. -/
def Document.from_json : JSON → Option Document
  | .obj data => Document.from_dict data
  | _ => none

/-- One entry of `index.json`: the denormalized projection of a saved
document, keyed by `doc_id`. -/
structure IndexEntry where
  doc_type : String
  tags : List String
  created_at : Int
  updated_at : Int
  file_path : String
deriving DecidableEq

/-- The repository state: the in-memory `self._index`, the persisted
content of `index.json`, and the per-document files of the storage
directory, keyed by path. -/
structure RepoState where
  storage_path : String
  index : List (String × IndexEntry)
  indexFile : List (String × IndexEntry)
  files : List (String × JSON)

/-- `DocumentRepository._get_document_path`. -/
def document_path (st : RepoState) (doc_id : String) : String :=
  st.storage_path ++ "/" ++ doc_id ++ ".json"

/-- `DocumentRepository.get_document`: `none` without an index entry; with
one, `none` when the file is absent or fails to parse as a document
(caught and logged), otherwise the reconstructed document. -/
def get_document (st : RepoState) (doc_id : String) : Option Document :=
  if (dictGet st.index doc_id).isNone then none
  else
    match dictGet st.files (document_path st doc_id) with
    | none => none
    | some payload => Document.from_json payload

/-- `DocumentRepository.list_documents`: the index keys in insertion
order. -/
def list_documents (st : RepoState) : List String :=
  st.index.map (fun p => p.1)

/-- `DocumentRepository.search_by_tag`: the comprehension
`[doc_id for doc_id, info in self._index.items() if tag in info["tags"]]`
(every entry written by `save_document` carries its `tags` key, so the
source's `info.get("tags", [])` default never fires in the model). -/
def search_by_tag (st : RepoState) (tag : String) : List String :=
  st.index.filterMap (fun p => if tag ∈ p.2.tags then some p.1 else none)

/-- The record returned by `get_repository_stats`. -/
structure RepoStats where
  total_documents : Nat
  document_types : List (String × Nat)
  unique_tags : Nat
  all_tags : List String
  storage_path : String

/-- Python `set.add`: sets are modelled as duplicate-free lists; element
count and the sorted view are the only observations the source makes, and
both are independent of the list's order. -/
def setAdd (s : List String) (x : String) : List String :=
  if x ∈ s then s else s ++ [x]

/-- Python `set.update(iterable)`. -/
def setUpdate (s : List String) (l : List String) : List String :=
  l.foldl setAdd s

/-- Python `sorted(...)` on strings, i.e. the ascending lexicographic
reordering. -/
def sortStrings (l : List String) : List String :=
  l.insertionSort (fun a b => a ≤ b)

/-- The body of the single `for info in self._index.values()` loop of
`get_repository_stats`: bump the occurrence count of `info["doc_type"]`
and add `info["tags"]` to the set of all tags. -/
def statsStep (acc : List (String × Nat) × List String)
    (p : String × IndexEntry) : List (String × Nat) × List String :=
  (dictSet acc.1 p.2.doc_type (dictGetD acc.1 p.2.doc_type 0 + 1),
   setUpdate acc.2 p.2.tags)

/-- `DocumentRepository.get_repository_stats`: one pass over the index
values accumulating the per-type occurrence counts and the set of all tags
(entries written by `save_document` always carry `doc_type` and `tags`, so
the source's `.get` defaults never fire in the model). -/
def get_repository_stats (st : RepoState) : RepoStats :=
  let acc := st.index.foldl statsStep ([], [])
  { total_documents := st.index.length
    document_types := acc.1
    unique_tags := acc.2.length
    all_tags := sortStrings acc.2
    storage_path := st.storage_path }

/-- The export file `export_documents` writes. -/
structure ExportData where
  exported_at : Int
  documents : List (String × List (String × JSON))

/-- The body of the export loop: documents whose load returns nothing are
skipped. -/
def exportStep (st : RepoState)
    (acc : List (String × List (String × JSON)))
    (p : String × IndexEntry) : List (String × List (String × JSON)) :=
  match get_document st p.1 with
  | some d => dictSet acc p.1 d.to_dict
  | none => acc

/-- `DocumentRepository.export_documents`: build the id-to-dictionary
mapping via `get_document`, skipping every id whose load returns nothing,
then write one file; `writeOk` says whether that write succeeds (on
failure the caught raise yields `False` and no export content is
promised). -/
def export_documents (st : RepoState) (now : Int) (writeOk : Bool) :
    Option ExportData × Bool :=
  let docs := st.index.foldl (exportStep st) []
  if writeOk then (some { exported_at := now, documents := docs }, true)
  else (none, false)

/-- A sample document for exercising the operations on concrete input. -/
def sampleDoc : Document :=
  { doc_id := "doc1", content := "hello", doc_type := "text",
    metadata := [], tags := ["a"], created_at := 0, updated_at := 0 }

/-- A repository whose single index entry points at a missing file. -/
def repoMissingFile : RepoState :=
  { storage_path := "documents"
    index := [("doc1", { doc_type := "text", tags := [], created_at := 0,
                         updated_at := 0,
                         file_path := "documents/doc1.json" })]
    indexFile := [("doc1", { doc_type := "text", tags := [], created_at := 0,
                             updated_at := 0,
                             file_path := "documents/doc1.json" })]
    files := [] }

theorem dictGet_dictSet_self {α : Type} (m : List (String × α)) (k : String)
    (v : α) : dictGet (dictSet m k v) k = some v := by
  induction m with
  | nil => simp [dictGet, dictSet]
  | cons p t ih =>
    by_cases hp : p.1 = k
    · simp [dictGet, dictSet, hp]
    · simp [dictGet, dictSet, hp, ih]

theorem dictGet_dictSet_ne {α : Type} (m : List (String × α)) (k k' : String)
    (v : α) (hk : k' ≠ k) : dictGet (dictSet m k v) k' = dictGet m k' := by
  have hk' : k ≠ k' := Ne.symm hk
  induction m with
  | nil => simp [dictGet, dictSet, hk']
  | cons p t ih =>
    by_cases hp : p.1 = k
    · simp [dictGet, dictSet, hp, hk']
    · by_cases hq : p.1 = k'
      · simp [dictGet, dictSet, hp, hq, hk]
      · simp [dictGet, dictSet, hp, hq, ih]

theorem dictGet_dictDel_ne {α : Type} (m : List (String × α))
    (k k' : String) (hk : k' ≠ k) :
    dictGet (dictDel m k) k' = dictGet m k' := by
  have hk' : k ≠ k' := Ne.symm hk
  induction m with
  | nil => simp [dictDel]
  | cons p t ih =>
    by_cases hp : p.1 = k
    · simp [dictGet, dictDel, hp, ih, hk']
    · simp [dictGet, dictDel, hp, ih]

theorem asStrList_map_str (l : List String) :
    asStrList (l.map JSON.str) = some l := by
  induction l with
  | nil => rfl
  | cons s t ih => simp [asStrList, ih]

/-- Serialization round-trip at the dictionary level. -/
theorem from_dict_to_dict (d : Document) :
    Document.from_dict d.to_dict = some d := by
  simp [Document.from_dict, Document.to_dict, dictGet, datetimeIsoformat,
    datetimeFromisoformat, asStrList_map_str]

/-- Serialization round-trip at the JSON level. -/
theorem from_json_to_json (d : Document) :
    Document.from_json d.to_json = some d := by
  simp [Document.from_json, Document.to_json, from_dict_to_dict]

/-- C2: `from_dict(to_dict(d))` and `from_json(to_json(d))` reproduce `d`
field-for-field; and in `from_dict` a missing `doc_type` defaults to
`"text"`, missing `metadata` to `{}`, missing `tags` to `[]`, and a
missing `updated_at` to the reconstructed `created_at`. -/
theorem claim_C2 (d : Document) (doc_id content : String) (ca : Int) :
    Document.from_dict d.to_dict = some d ∧
    Document.from_json d.to_json = some d ∧
    Document.from_dict
        [("doc_id", .str doc_id), ("content", .str content),
         ("created_at", datetimeIsoformat ca)] =
      some { doc_id := doc_id, content := content, doc_type := "text",
             metadata := [], tags := [], created_at := ca,
             updated_at := ca } := by
  refine ⟨from_dict_to_dict d, from_json_to_json d, ?_⟩
  simp [Document.from_dict, dictGet, datetimeIsoformat, datetimeFromisoformat]

/-- C10: `from_dict` fails on any input missing `doc_id`, `content` or
`created_at` (no default for these three), while a dictionary carrying
exactly those three keys succeeds, `doc_type`, `metadata`, `tags` and
`updated_at` being defaulted. -/
theorem claim_C10 (data : List (String × JSON)) (doc_id content : String)
    (ca : Int)
    (h : dictGet data "doc_id" = none ∨ dictGet data "content" = none ∨
      dictGet data "created_at" = none) :
    Document.from_dict data = none ∧
    (Document.from_dict
        [("doc_id", .str doc_id), ("content", .str content),
         ("created_at", datetimeIsoformat ca)]).isSome := by
  constructor
  · unfold Document.from_dict
    split
    · rcases h with h | h | h <;> simp_all
    · rfl
  · simp [Document.from_dict, dictGet, datetimeIsoformat,
      datetimeFromisoformat]

/-- C10 witness: the empty dictionary is rejected while the minimal
three-key dictionary is accepted. -/
theorem claim_C10_witness :
    Document.from_dict [] = none ∧
    (Document.from_dict
        [("doc_id", .str "doc1"), ("content", .str "hello"),
         ("created_at", datetimeIsoformat 0)]).isSome :=
  claim_C10 [] "doc1" "hello" 0 (Or.inl rfl)

/-- C5: `updated_at >= created_at` holds after construction and is
preserved by every mutator; `updated_at` never decreases across a
mutating call, and strictly increases for `update_content`,
`update_metadata` and an effective tag add/remove, assuming the clock is
strictly increasing (`d.updated_at < now`). -/
theorem claim_C5 (doc_id content doc_type : String)
    (metadata : Option (List (String × JSON))) (tags : Option (List String))
    (created_at : Option Int) (now0 : Int)
    (d : Document) (now : Int) (c k tag : String) (v : JSON)
    (hinv : d.created_at ≤ d.updated_at) (hclock : d.updated_at < now) :
    (Document.new doc_id content doc_type metadata tags created_at
        now0).created_at ≤
      (Document.new doc_id content doc_type metadata tags created_at
        now0).updated_at ∧
    ((d.update_content c now).created_at ≤
        (d.update_content c now).updated_at ∧
      d.updated_at < (d.update_content c now).updated_at) ∧
    ((d.update_metadata k v now).created_at ≤
        (d.update_metadata k v now).updated_at ∧
      d.updated_at < (d.update_metadata k v now).updated_at) ∧
    ((d.add_tag tag now).created_at ≤ (d.add_tag tag now).updated_at ∧
      d.updated_at ≤ (d.add_tag tag now).updated_at ∧
      (tag ∉ d.tags → d.updated_at < (d.add_tag tag now).updated_at)) ∧
    ((d.remove_tag tag now).created_at ≤ (d.remove_tag tag now).updated_at ∧
      d.updated_at ≤ (d.remove_tag tag now).updated_at ∧
      (tag ∈ d.tags → d.updated_at < (d.remove_tag tag now).updated_at)) := by
  unfold Document.new Document.update_content Document.update_metadata
    Document.add_tag Document.remove_tag
  by_cases ht : tag ∈ d.tags <;> simp [ht] <;> omega

/-- C5 witness: the guarantees instantiated on a concrete document whose
clock strictly advances to 2. -/
theorem claim_C5_witness :
    (({ doc_id := "doc1", content := "hello", doc_type := "text",
        metadata := [], tags := ["a"], created_at := 0, updated_at := 1 } :
        Document).update_content "x" 2).created_at ≤
      (({ doc_id := "doc1", content := "hello", doc_type := "text",
          metadata := [], tags := ["a"], created_at := 0, updated_at := 1 } :
          Document).update_content "x" 2).updated_at ∧
    (1 : Int) <
      (({ doc_id := "doc1", content := "hello", doc_type := "text",
          metadata := [], tags := ["a"], created_at := 0, updated_at := 1 } :
          Document).update_content "x" 2).updated_at :=
  (claim_C5 "doc1" "hello" "text" none none none 0
    { doc_id := "doc1", content := "hello", doc_type := "text",
      metadata := [], tags := ["a"], created_at := 0, updated_at := 1 }
    2 "x" "m" "t" JSON.null (by decide) (by decide)).2.1

/-- C6 counterexample: on a document whose tag list already holds `"x"`
twice (direct construction imposes no set semantics), both `add_tag "x"`
calls are no-ops and two occurrences remain, not one. -/
theorem claim_C6_counterexample :
    ¬ (((({ doc_id := "doc1", content := "hello", doc_type := "text",
            metadata := [], tags := ["x", "x"], created_at := 0,
            updated_at := 0 } : Document).add_tag "x" 1).add_tag
          "x" 2).tags.count "x" = 1) := by
  decide

/-- C6 amended: for a document holding `t` at most once — as every
document built by the constructor's set-respecting use and `add_tag`
does — two `add_tag t` calls leave exactly one occurrence of `t`; and
whenever `t` is already present, `add_tag t` changes neither the tag list
nor `updated_at` (comparison is exact string equality). -/
theorem claim_C6_amended (d : Document) (tag : String) (n1 n2 : Int)
    (h : d.tags.count tag ≤ 1) :
    ((d.add_tag tag n1).add_tag tag n2).tags.count tag = 1 ∧
    (tag ∈ d.tags → d.add_tag tag n1 = d) := by
  constructor
  · by_cases ht : tag ∈ d.tags
    · have h1 : 0 < d.tags.count tag := List.count_pos_iff.mpr ht
      simp only [Document.add_tag, if_pos ht]
      omega
    · have h0 : d.tags.count tag = 0 := List.count_eq_zero.mpr ht
      simp [Document.add_tag, ht, h0]
  · intro ht
    simp [Document.add_tag, ht]

/-- C6 amended witness: adding `"b"` twice to a document that does not yet
carry it yields exactly one occurrence of `"b"`. -/
theorem claim_C6_amended_witness :
    ((sampleDoc.add_tag "b" 1).add_tag "b" 2).tags.count "b" = 1 ∧
    ("b" ∈ sampleDoc.tags → sampleDoc.add_tag "b" 1 = sampleDoc) :=
  claim_C6_amended sampleDoc "b" 1 2 (by decide)

theorem mem_filterMap_tag (l : List (String × IndexEntry))
    (tag doc_id : String) :
    doc_id ∈ l.filterMap
        (fun p => if tag ∈ p.2.tags then some p.1 else none) ↔
      ∃ e, (doc_id, e) ∈ l ∧ tag ∈ e.tags := by
  induction l with
  | nil => simp
  | cons p t ih =>
    obtain ⟨k, v⟩ := p
    by_cases hp : tag ∈ v.tags
    · simp only [List.filterMap_cons, if_pos hp, List.mem_cons, ih,
        Prod.mk.injEq]
      aesop
    · simp only [List.filterMap_cons, if_neg hp, List.mem_cons, ih,
        Prod.mk.injEq]
      aesop

theorem filterMap_tag_sublist (l : List (String × IndexEntry))
    (tag : String) :
    (l.filterMap (fun p => if tag ∈ p.2.tags then some p.1 else
      none)).Sublist (l.map (fun p => p.1)) := by
  induction l with
  | nil => simp
  | cons p t ih =>
    by_cases hp : tag ∈ p.2.tags
    · simp only [List.filterMap_cons, if_pos hp, List.map_cons]
      exact List.Sublist.cons₂ p.1 ih
    · simp only [List.filterMap_cons, if_neg hp, List.map_cons]
      exact List.Sublist.cons p.1 ih

/-- C7: `search_by_tag(t)` returns exactly the ids whose index entry's tag
list contains `t` as an exact string, and it returns them in index
insertion order — the result is a sublist of `list_documents()`, which
enumerates the index in insertion order (no re-sorting). -/
theorem claim_C7 (st : RepoState) (tag : String) :
    (∀ doc_id, doc_id ∈ search_by_tag st tag ↔
      ∃ e, (doc_id, e) ∈ st.index ∧ tag ∈ e.tags) ∧
    (search_by_tag st tag).Sublist (list_documents st) :=
  ⟨fun doc_id => mem_filterMap_tag st.index tag doc_id,
   filterMap_tag_sublist st.index tag⟩

theorem statsFold_types (l : List (String × IndexEntry)) (ty : String) :
    ∀ acc : List (String × Nat) × List String,
    dictGetD (l.foldl statsStep acc).1 ty 0 =
      dictGetD acc.1 ty 0 +
        (l.filter (fun p => p.2.doc_type = ty)).length := by
  induction l with
  | nil => intro acc; simp
  | cons p t ih =>
    intro acc
    rw [List.foldl_cons, ih]
    by_cases hp : p.2.doc_type = ty
    · subst hp
      have hstep : dictGetD (statsStep acc p).1 p.2.doc_type 0 =
          dictGetD acc.1 p.2.doc_type 0 + 1 := by
        simp [statsStep, dictGetD, dictGet_dictSet_self]
      rw [hstep]
      simp [List.filter_cons]
      omega
    · have hstep : dictGetD (statsStep acc p).1 ty 0 =
          dictGetD acc.1 ty 0 := by
        unfold statsStep dictGetD
        rw [dictGet_dictSet_ne _ _ _ _ (Ne.symm hp)]
      rw [hstep]
      simp [List.filter_cons, hp]

theorem statsFold_tags (l : List (String × IndexEntry)) :
    ∀ acc : List (String × Nat) × List String,
    (l.foldl statsStep acc).2 =
      l.foldl (fun s p => setUpdate s p.2.tags) acc.2 := by
  induction l with
  | nil => intro acc; rfl
  | cons p t ih =>
    intro acc
    rw [List.foldl_cons, List.foldl_cons, ih]
    rfl

theorem mem_setAdd (s : List String) (x y : String) :
    y ∈ setAdd s x ↔ y ∈ s ∨ y = x := by
  by_cases hx : x ∈ s
  · simp only [setAdd, if_pos hx]
    constructor
    · exact Or.inl
    · rintro (h | rfl)
      · exact h
      · exact hx
  · simp [setAdd, hx]

theorem nodup_setAdd (s : List String) (x : String) (h : s.Nodup) :
    (setAdd s x).Nodup := by
  by_cases hx : x ∈ s
  · simpa [setAdd, hx] using h
  · simp only [setAdd, if_neg hx]
    rw [List.nodup_append]
    refine ⟨h, List.nodup_singleton x, ?_⟩
    intro a ha hax
    rw [List.mem_singleton] at hax
    subst hax
    exact hx ha

theorem mem_setUpdate (l : List String) : ∀ (s : List String) (y : String),
    y ∈ setUpdate s l ↔ y ∈ s ∨ y ∈ l := by
  induction l with
  | nil => intro s y; simp [setUpdate]
  | cons x t ih =>
    intro s y
    show y ∈ setUpdate (setAdd s x) t ↔ _
    rw [ih (setAdd s x) y, mem_setAdd]
    simp only [List.mem_cons]
    tauto

theorem nodup_setUpdate (l : List String) : ∀ s : List String,
    s.Nodup → (setUpdate s l).Nodup := by
  induction l with
  | nil => intro s h; exact h
  | cons x t ih =>
    intro s h
    exact ih (setAdd s x) (nodup_setAdd s x h)

theorem mem_tagsFold (l : List (String × IndexEntry)) :
    ∀ (s : List String) (y : String),
    y ∈ l.foldl (fun s p => setUpdate s p.2.tags) s ↔
      y ∈ s ∨ ∃ p, p ∈ l ∧ y ∈ p.2.tags := by
  induction l with
  | nil => intro s y; simp
  | cons p t ih =>
    intro s y
    rw [List.foldl_cons, ih, mem_setUpdate]
    simp only [List.mem_cons]
    constructor
    · rintro (⟨h | h⟩ | ⟨q, hq, hy⟩)
      · exact Or.inl h
      · exact Or.inr ⟨p, Or.inl rfl, h⟩
      · exact Or.inr ⟨q, Or.inr hq, hy⟩
    · rintro (h | ⟨q, (rfl | hq), hy⟩)
      · exact Or.inl (Or.inl h)
      · exact Or.inl (Or.inr hy)
      · exact Or.inr ⟨q, hq, hy⟩

theorem nodup_tagsFold (l : List (String × IndexEntry)) :
    ∀ s : List String, s.Nodup →
      (l.foldl (fun s p => setUpdate s p.2.tags) s).Nodup := by
  induction l with
  | nil => intro s h; exact h
  | cons p t ih =>
    intro s h
    exact ih (setUpdate s p.2.tags) (nodup_setUpdate p.2.tags s h)

/-- C8: `get_repository_stats()` reports the number of index entries, the
per-`doc_type` occurrence counts over the index, the number of distinct
tags, the lexicographically sorted duplicate-free list of those tags, and
the storage path — and it is computed from the index alone: changing the
document files does not change it. -/
theorem claim_C8 (st : RepoState) (ty : String)
    (F : List (String × JSON)) :
    (get_repository_stats st).total_documents = st.index.length ∧
    dictGetD (get_repository_stats st).document_types ty 0 =
      (st.index.filter (fun p => p.2.doc_type = ty)).length ∧
    (get_repository_stats st).unique_tags =
      (get_repository_stats st).all_tags.length ∧
    (get_repository_stats st).all_tags.Nodup ∧
    (∀ t, t ∈ (get_repository_stats st).all_tags ↔
      ∃ p, p ∈ st.index ∧ t ∈ p.2.tags) ∧
    (get_repository_stats st).all_tags.Sorted (fun a b => a ≤ b) ∧
    (get_repository_stats st).storage_path = st.storage_path ∧
    get_repository_stats { st with files := F } =
      get_repository_stats st := by
  refine ⟨rfl, ?_, ?_, ?_, ?_, ?_, rfl, rfl⟩
  · have h := statsFold_types st.index ty ([], [])
    simpa [get_repository_stats, dictGetD, dictGet] using h
  · show (st.index.foldl statsStep ([], [])).2.length =
      (sortStrings (st.index.foldl statsStep ([], [])).2).length
    exact (List.perm_insertionSort _ _).length_eq.symm
  · show (sortStrings (st.index.foldl statsStep ([], [])).2).Nodup
    refine (List.perm_insertionSort _ _).nodup_iff.mpr ?_
    rw [statsFold_tags]
    exact nodup_tagsFold st.index [] List.nodup_nil
  · intro t
    show t ∈ sortStrings (st.index.foldl statsStep ([], [])).2 ↔ _
    rw [sortStrings, (List.perm_insertionSort _ _).mem_iff,
      statsFold_tags, mem_tagsFold]
    simp
  · show (sortStrings (st.index.foldl statsStep ([], [])).2).Sorted
      (fun a b => a ≤ b)
    exact List.sorted_insertionSort _ _

theorem exportFold_not_mem (st : RepoState) (doc_id : String)
    (hget : get_document st doc_id = none)
    (l : List (String × IndexEntry)) :
    ∀ acc, dictGet acc doc_id = none →
      dictGet (l.foldl (exportStep st) acc) doc_id = none := by
  induction l with
  | nil => intro acc h; simpa using h
  | cons p t ih =>
    intro acc h
    rw [List.foldl_cons]
    apply ih
    unfold exportStep
    by_cases hp : p.1 = doc_id
    · rw [hp, hget]
      exact h
    · cases hg : get_document st p.1 with
      | none => exact h
      | some d =>
        show dictGet (dictSet acc p.1 d.to_dict) doc_id = none
        rw [dictGet_dictSet_ne acc p.1 doc_id d.to_dict
          (fun hh => hp hh.symm)]
        exact h

/-- C9: when an indexed document's file is missing or unparseable (so
`get_document` returns nothing for it), `export_documents` still returns
`True` and silently omits that id from the exported `documents` mapping. -/
theorem claim_C9 (st : RepoState) (doc_id : String) (now : Int)
    (hidx : (dictGet st.index doc_id).isSome)
    (hget : get_document st doc_id = none) :
    (export_documents st now true).2 = true ∧
    ∃ ed, (export_documents st now true).1 = some ed ∧
      dictGet ed.documents doc_id = none := by
  refine ⟨rfl, ?_⟩
  refine ⟨{ exported_at := now, documents := st.index.foldl (exportStep st) [] }, rfl, ?_⟩
  exact exportFold_not_mem st doc_id hget st.index [] rfl

/-- C9 witness: on a repository whose single index entry points at a
missing file, export succeeds and the exported mapping omits `"doc1"`. -/
theorem claim_C9_witness :
    (export_documents repoMissingFile 5 true).2 = true ∧
    ∃ ed, (export_documents repoMissingFile 5 true).1 = some ed ∧
      dictGet ed.documents "doc1" = none :=
  claim_C9 repoMissingFile "doc1" 5 (by rfl) (by rfl)
